import Mathlib

/-!
Formal model of the DataTable widget: viewport windowing, incremental
load triggering, scroll position label, CSV export escaping, cell value
resolution, column state management, the scroll-indicator timer and
saved-view validation. Definitions are shallow embeddings of the
TypeScript source; pixel quantities are rationals, DOM strings are
`String` or `List Char`.
-/

-- ============================================================
-- Viewport windowing calculator
-- ============================================================

/-- A materialized window over the item list: index bounds, total
scrollable extent in pixels, and one (index, pixelOffset, pixelSize)
triple per materialized row. -/
structure Window where
  startIndex : Nat
  endIndex : Nat
  totalExtent : Rat
  rows : List (Nat × Rat × Rat)
deriving DecidableEq, Repr

/-- Modelled from the spec: the windowing algorithm itself lives in the
external `@tanstack/react-virtual` library (`useVirtualizer`, configured
in VirtualizedTableBody.tsx lines 255-266 with a constant row height and
an overscan count); only its call site is in the repository. This
definition follows the fixed-row-height algorithm of the spec:
`firstVisible = floor(scroll / rowHeight)` clamped to `[0, itemCount-1]`,
`visibleCount = ceil(viewport / rowHeight)`,
`startIndex = max(0, firstVisible - overscan)`,
`endIndex = min(itemCount - 1, firstVisible + visibleCount + overscan)`,
row offsets `index * rowHeight`, and an empty window with
`totalExtent = 0` when `itemCount = 0`. -/
def computeWindow (itemCount : Nat) (scrollOffset viewportHeight rowHeight : Rat)
    (overscan : Nat) : Window :=
  if itemCount = 0 then ⟨0, 0, 0, []⟩
  else
    let firstVisible : Nat := min (Int.toNat ⌊scrollOffset / rowHeight⌋) (itemCount - 1)
    let visibleCount : Nat := Int.toNat ⌈viewportHeight / rowHeight⌉
    let s : Nat := firstVisible - overscan
    let e : Nat := min (itemCount - 1) (firstVisible + visibleCount + overscan)
    ⟨s, e, itemCount * rowHeight,
      (List.range' s (e - s + 1)).map (fun i => (i, (i : Rat) * rowHeight, rowHeight))⟩

-- ============================================================
-- Incremental load coordinator
-- ============================================================

/-- Embedding of the `onNearEnd` effect of VirtualizedTableBody.tsx
(lines 276-289): the effect returns early unless `hasMore` is true and
`isLoadingMore` is false, and then fires `onNearEnd` exactly when the
index of the last virtual row satisfies
`lastVirtualRow.index >= data.length - threshold` (JavaScript number
arithmetic, so the subtraction may be negative: computed in `Int`). -/
def shouldRequestMore (endIndex itemCount : Nat) (hasMore isFetchingMore : Bool)
    (scrollThresholdRows : Nat) : Bool :=
  hasMore && !isFetchingMore &&
    decide ((itemCount : Int) - (scrollThresholdRows : Int) ≤ (endIndex : Int))

-- ============================================================
-- Scroll position indicator label
-- ============================================================

/-- Embedding of `ScrollPositionIndicator` (VirtualizedTableBody.tsx
lines 25-48): renders nothing when not visible or when `totalRows` is 0,
otherwise the text `Lignes {startIndex+1}-{min(endIndex+1, totalRows)}
sur {totalRows}`. -/
def scrollPositionIndicator (startIndex endIndex totalRows : Nat)
    (visible : Bool) : Option String :=
  if visible = false ∨ totalRows = 0 then none
  else
    some ("Lignes " ++ toString (startIndex + 1) ++ "-"
      ++ toString (min (endIndex + 1) totalRows) ++ " sur " ++ toString totalRows)

/-- The pure label computation of the indicator: the component with
`visible` fixed to true, taking the index pair of the window. -/
def computeLabel (w : Nat × Nat) (totalRows : Nat) : Option String :=
  scrollPositionIndicator w.1 w.2 totalRows true

-- ============================================================
-- CSV export
-- ============================================================

/-- The characters that make `exportToCSV` quote a data cell
(DataTable.tsx lines 655-660): comma, double quote, newline or carriage
return. -/
def csvSpecialField (c : Char) : Bool :=
  c = ',' || c = '"' || c = '\n' || c = '\r'

/-- The characters the header branch of `exportToCSV` checks for
(DataTable.tsx line 644): comma, double quote or newline — carriage
return is not checked there. -/
def csvSpecialLabel (c : Char) : Bool :=
  c = ',' || c = '"' || c = '\n'

/-- The quote-doubling `replace(/"/g, o)` step of `exportToCSV`, on the
character list of the value. -/
def csvDouble : List Char → List Char
  | [] => []
  | c :: cs => if c = '"' then '"' :: '"' :: csvDouble cs else c :: csvDouble cs

/-- Embedding of the data-cell escape in `exportToCSV` (DataTable.tsx
lines 649-665): a raw value containing a comma, double quote, newline or
carriage return is wrapped in double quotes with internal double quotes
doubled; otherwise it is emitted unchanged. -/
def escapeCSVField (f : List Char) : List Char :=
  if f.any csvSpecialField then '"' :: (csvDouble f ++ ['"']) else f

/-- Embedding of the header-label escape in `exportToCSV` (DataTable.tsx
lines 641-647): double quotes are doubled first, and the escaped label
is wrapped in double quotes iff it (equivalently, the original label)
contains a comma, double quote or newline. -/
def escapeCSVLabel (f : List Char) : List Char :=
  let esc := csvDouble f
  if esc.any csvSpecialLabel then '"' :: (esc ++ ['"']) else esc

/-- JavaScript `array.join(sep)` on character lists. -/
def csvJoin (sep : Char) : List (List Char) → List Char
  | [] => []
  | [x] => x
  | x :: xs => x ++ sep :: csvJoin sep xs

/-- One escaped line of fields joined with commas, parameterized by the
escape used (data cells and header labels differ on carriage return). -/
def csvLineWith (esc : List Char → List Char) (fields : List (List Char)) : List Char :=
  csvJoin ',' (fields.map esc)

/-- A data line of `exportToCSV`: escaped cell values joined with commas. -/
def csvLine : List (List Char) → List Char :=
  csvLineWith escapeCSVField

/-- The header line of `exportToCSV`: escaped column labels joined with
commas. -/
def csvHeaderLine : List (List Char) → List Char :=
  csvLineWith escapeCSVLabel

/-- Embedding of the CSV content built by `exportToCSV` (DataTable.tsx
lines 639-667): the header line followed by one line per data row, all
joined with a newline. -/
def exportToCSVContent (labels : List (List Char)) (rows : List (List (List Char))) :
    List Char :=
  csvJoin '\n' (csvHeaderLine labels :: rows.map csvLine)

/-- Standard CSV parsing, quoted-field body: consumes characters up to
the closing double quote, reading a doubled double quote as one literal
double quote; returns the field content and the unconsumed input. -/
def parseQuotedBody : List Char → List Char × List Char
  | [] => ([], [])
  | [c] => if c = '"' then ([], []) else ([c], [])
  | c :: d :: rest =>
    if c = '"' then
      if d = '"' then
        let p := parseQuotedBody rest
        ('"' :: p.1, p.2)
      else ([], d :: rest)
    else
      let p := parseQuotedBody (d :: rest)
      (c :: p.1, p.2)

/-- Standard CSV parsing, unquoted field: consumes characters up to the
next comma or newline. -/
def parseUnquoted : List Char → List Char × List Char
  | [] => ([], [])
  | c :: rest =>
    if c = ',' ∨ c = '\n' then ([], c :: rest)
    else
      let p := parseUnquoted rest
      (c :: p.1, p.2)

/-- Standard CSV parsing of one field: a field starting with a double
quote is read as a quoted field, anything else as an unquoted field. -/
def parseCSVField (l : List Char) : List Char × List Char :=
  match l with
  | [] => ([], [])
  | c :: rest => if c = '"' then parseQuotedBody rest else parseUnquoted (c :: rest)

/-- Standard CSV parsing of one record (fuel-indexed recursion over the
fields): fields separated by commas, terminated by a newline or the end
of input. -/
def parseRecordFuel : Nat → List Char → List (List Char) × List Char
  | 0, l => ([], l)
  | fuel + 1, l =>
    let p := parseCSVField l
    match p.2 with
    | [] => ([p.1], [])
    | c :: r =>
      if c = ',' then
        let q := parseRecordFuel fuel r
        (p.1 :: q.1, q.2)
      else if c = '\n' then ([p.1], r)
      else ([p.1], c :: r)

/-- Standard CSV parsing of one record, with enough fuel for any input. -/
def parseCSVRecord (l : List Char) : List (List Char) × List Char :=
  parseRecordFuel (l.length + 1) l

/-- Standard CSV parsing of a sequence of records (fuel-indexed). -/
def parseRecordsFuel : Nat → List Char → List (List (List Char))
  | 0, _ => []
  | _ + 1, [] => []
  | fuel + 1, l =>
    let p := parseCSVRecord l
    p.1 :: parseRecordsFuel fuel p.2

/-- Standard CSV parsing of a whole text, with enough fuel for any
input. -/
def parseCSV (l : List Char) : List (List (List Char)) :=
  parseRecordsFuel (l.length + 1) l

-- ============================================================
-- Cell value resolution (row renderers)
-- ============================================================

/-- A JavaScript value as the row renderers see it: null/undefined,
string, number, or an object with named properties (keys as character
lists, matching the split of the column key). -/
inductive JsValue where
  | null : JsValue
  | str : List Char → JsValue
  | num : Int → JsValue
  | obj : List (List Char × JsValue) → JsValue

/-- JavaScript optional member access `value?.[key]`: property lookup on
an object, undefined (modelled as null) on non-objects and missing
keys. -/
def jsGet (v : JsValue) (k : List Char) : JsValue :=
  match v with
  | .obj fields =>
    match fields.lookup k with
    | some w => w
    | none => .null
  | _ => .null

/-- JavaScript `string.split(sep)` for a one-character separator. -/
def splitOn (sep : Char) : List Char → List (List Char)
  | [] => [[]]
  | c :: cs =>
    if c = sep then [] :: splitOn sep cs
    else
      match splitOn sep cs with
      | [] => [[c]]
      | f :: rest => (c :: f) :: rest

/-- The dot-path walk shared by `renderCellContent` and
`getRawCellValue` (DataTable.tsx lines 539-545 and 615-621):
`value = value?.[key]` for each path segment, stopping early once the
value is null or undefined. -/
def walkPath : JsValue → List (List Char) → JsValue
  | v, [] => v
  | v, k :: ks =>
    match jsGet v k with
    | .null => .null
    | w => walkPath w ks

/-- JavaScript `String(value)` / `value.toString()` on the modelled
values (never consulted on null, which both renderers guard first). -/
def jsString : JsValue → String
  | .null => "null"
  | .str s => String.mk s
  | .num n => toString n
  | .obj _ => "[object Object]"

/-- Embedding of `renderCellContent` (DataTable.tsx lines 531-549): a
custom render result is used verbatim; otherwise the column key is split
on dots and walked into the item, and `value?.toString() || o` yields
the placeholder `-` for null/undefined (and for an empty string, which
is falsy). -/
def renderCellContent (render : Option (JsValue → String)) (key : List Char)
    (item : JsValue) : String :=
  match render with
  | some r => r item
  | none =>
    match walkPath item (splitOn ('.') key) with
    | .null => "-"
    | v => if jsString v = "" then "-" else jsString v

/-- Embedding of the cell rendering in `VirtualizedRow`
(VirtualizedTableBody.tsx lines 124-131): the raw value is read by one
direct property access `item[column.key]` with the whole key — no
dot-path splitting — then rendered as `String(rawValue)`, with the `-`
placeholder only for null/undefined. -/
def virtualizedCellContent (render : Option (JsValue → String)) (key : List Char)
    (item : JsValue) : String :=
  match render with
  | some r => r item
  | none =>
    match jsGet item key with
    | .null => "-"
    | v => jsString v

-- ============================================================
-- Column state management
-- ============================================================

/-- The caller-supplied column configuration, restricted to the fields
the column state logic reads (types.ts / DataTable.tsx): key, resolved
default visibility, optional initial width. -/
structure ColumnConfig where
  key : String
  defaultVisible : Bool
  width : Option Rat
deriving DecidableEq, Repr

/-- One entry of the `columnSettings` state (DataTable.tsx lines
120-127): key plus visibility, display order and current width. -/
structure ColumnState where
  key : String
  visible : Bool
  order : Nat
  width : Option Rat
deriving DecidableEq, Repr

/-- Initialization of the column state (DataTable.tsx lines 120-127):
one state per configured column, visible per its default, order equal to
its position in the caller list. -/
def initColumnSettings (cols : List ColumnConfig) : List ColumnState :=
  (cols.enum).map fun p => ⟨p.2.key, p.2.defaultVisible, p.1, p.2.width⟩

/-- Embedding of `toggleColumnVisibility` (DataTable.tsx lines 334-340). -/
def toggleColumnVisibility (key : String) (settings : List ColumnState) :
    List ColumnState :=
  settings.map fun col =>
    if col.key = key then { col with visible := !col.visible } else col

/-- Embedding of `handleColumnResize` (DataTable.tsx lines 376-382). -/
def handleColumnResize (key : String) (width : Rat) (settings : List ColumnState) :
    List ColumnState :=
  settings.map fun col =>
    if col.key = key then { col with width := some width } else col

/-- The `.sort((a, b) => a.order - b.order)` step: a stable sort of the
settings by ascending order value. -/
def sortByOrder (settings : List ColumnState) : List ColumnState :=
  settings.insertionSort fun a b => a.order ≤ b.order

/-- Renumbering `map((col, index) => ({ ...col, order: index }))`: after
a move, orders are reassigned densely by position. -/
def renumberOrders (settings : List ColumnState) : List ColumnState :=
  (settings.enum).map fun p => { p.2 with order := p.1 }

/-- Embedding of `moveColumn` (DataTable.tsx lines 345-371): sort by current order,
move the keyed column one position up or down (no-op when the key is
absent or the move leaves the bounds), then renumber the orders
densely. -/
def moveColumn (key : String) (up : Bool) (settings : List ColumnState) :
    List ColumnState :=
  let sorted := sortByOrder settings
  match sorted.findIdx? fun col => col.key = key with
  | none => settings
  | some currentIndex =>
    let targetIndex : Int :=
      if up then (currentIndex : Int) - 1 else (currentIndex : Int) + 1
    if targetIndex < 0 ∨ (sorted.length : Int) ≤ targetIndex then settings
    else
      match sorted.get? currentIndex with
      | none => settings
      | some moved =>
        let removed := sorted.eraseIdx currentIndex
        renumberOrders
          (removed.take targetIndex.toNat ++ moved :: removed.drop targetIndex.toNat)

/-- Embedding of `handleColumnReorder` (DataTable.tsx lines 388-407): drag-and-drop
reorder (no-op when either key is absent), then renumber the orders
densely. -/
def handleColumnReorder (dragKey dropKey : String) (settings : List ColumnState) :
    List ColumnState :=
  let sorted := sortByOrder settings
  match sorted.findIdx? fun col => col.key = dragKey,
        sorted.findIdx? fun col => col.key = dropKey with
  | some dragIndex, some dropIndex =>
    match sorted.get? dragIndex with
    | none => settings
    | some dragged =>
      let removed := sorted.eraseIdx dragIndex
      renumberOrders (removed.take dropIndex ++ dragged :: removed.drop dropIndex)
  | _, _ => settings

/-- Embedding of `resetColumns` (DataTable.tsx lines 412-421): restores the initial
configuration. -/
def resetColumns (cols : List ColumnConfig) : List ColumnState :=
  initColumnSettings cols

/-- The `visibleColumns` derived value (DataTable.tsx lines 558-563):
the visible columns sorted by their order. -/
def visibleColumns (settings : List ColumnState) : List ColumnState :=
  sortByOrder (settings.filter fun col => col.visible)

/-- The column-state invariant the code maintains: keys are pairwise
distinct and the order values over ALL columns (visible or not) are a
permutation of 0..N-1 where N is the total number of columns. -/
def ColumnInvariant (settings : List ColumnState) : Prop :=
  (settings.map fun c => c.key).Nodup ∧
  ((settings.map fun c => c.order).Perm (List.range settings.length))

-- ============================================================
-- Scroll-indicator timer
-- ============================================================

/-- State of the scroll-indicator debounce: the `showIndicator` flag and
the pending hide-timer deadline, if any. -/
structure IndicatorState where
  visible : Bool
  deadline : Option Nat
deriving DecidableEq, Repr

/-- The state before any scroll event: hidden, no pending timer. -/
def indicatorInit : IndicatorState := ⟨false, none⟩

/-- Embedding of `handleScroll` (VirtualizedTableBody.tsx lines
298-313) at event time `t`: a no-op when the indicator is disabled by
configuration; otherwise shows the indicator, cancels any pending
hide-timer and schedules a new one 1500 time-units (1.5 seconds)
later. -/
def handleScroll (showScrollIndicator : Bool) (t : Nat) (s : IndicatorState) :
    IndicatorState :=
  if showScrollIndicator = false then s
  else ⟨true, some (t + 1500)⟩

/-- Timer semantics at observation time `t`: a pending hide-timer whose
deadline has been reached has fired, hiding the indicator and clearing
itself. -/
def fireTimer (t : Nat) (s : IndicatorState) : IndicatorState :=
  match s.deadline with
  | some d => if d ≤ t then ⟨false, none⟩ else s
  | none => s

/-- Run a trace of scroll events (their times, in order) through
`handleScroll`, firing any timer that expires before each event. -/
def runScrollTrace (showScrollIndicator : Bool) (trace : List Nat)
    (s : IndicatorState) : IndicatorState :=
  match trace with
  | [] => s
  | t :: ts =>
    runScrollTrace showScrollIndicator ts
      (handleScroll showScrollIndicator t (fireTimer t s))

/-- Whether the indicator is visible when observed at time `u` after a
scroll trace. -/
def observeIndicator (showScrollIndicator : Bool) (trace : List Nat) (u : Nat) : Bool :=
  (fireTimer u (runScrollTrace showScrollIndicator trace indicatorInit)).visible

-- ============================================================
-- Saved-view validation
-- ============================================================

/-- The values of the `EntityType` enumeration (table-views.ts). -/
def entityTypeValues : List String :=
  ["mondes", "personnages", "evenements", "lieux", "races", "romans",
   "relations-personnages", "relations-perso-events", "relations-perso-romans",
   "relations-event-lieux", "relations-event-romans",
   "caracteristiques-monde", "caracteristiques-personnage", "system-calendars"]

/-- The `AVAILABLE_COLUMNS` map (table-views.ts lines 679-837). -/
def AVAILABLE_COLUMNS : List (String × List String) :=
  [("mondes", ["id", "nom", "description", "dateCreation", "statut", "type",
     "niveau_technologique", "niveau_magie", "population_estimee"]),
   ("personnages", ["id", "nom", "prenom", "surnom", "description", "dateNaissance",
     "dateMort", "sexe", "statut", "alignement", "occupation", "monde", "raceEspece"]),
   ("evenements", ["id", "nom", "description", "dateDebut", "dateFin", "importance",
     "statut", "monde", "parent"]),
   ("lieux", ["id", "nom", "description", "type", "statut", "monde", "parent"]),
   ("races", ["id", "nom", "description", "type", "esperanceVie", "taille_moyenne",
     "monde"]),
   ("romans", ["id", "nom", "description", "datePublication", "statut", "tome",
     "monde"]),
   ("relations-personnages", ["id", "nom", "description", "dateDebut", "dateFin",
     "personnage1", "personnage2", "monde"]),
   ("relations-perso-events", ["id", "role", "nom", "description", "personnage",
     "evenement", "monde"]),
   ("relations-perso-romans", ["id", "role", "nom", "description", "personnage",
     "roman", "monde"]),
   ("relations-event-lieux", ["id", "nom", "type", "description", "evenement",
     "lieu", "monde"]),
   ("relations-event-romans", ["id", "nom", "importance", "description", "evenement",
     "roman", "monde"]),
   ("caracteristiques-monde", ["id", "nom", "type", "description", "monde",
     "raceEspece", "parent"]),
   ("caracteristiques-personnage", ["id", "nom", "type", "description", "dateDebut",
     "dateFin", "personnage", "monde", "parent"]),
   ("system-calendars", ["id", "nom", "description", "occurence", "monde", "parent"])]

/-- Embedding of `getAvailableColumns` (table-views.ts lines 846-848): map lookup
with an empty-list fallback. -/
def getAvailableColumns (entityType : String) : List String :=
  match AVAILABLE_COLUMNS.lookup entityType with
  | some cols => cols
  | none => []

/-- Embedding of `isColumnValid` (table-views.ts lines 853-856). -/
def isColumnValid (entityType column : String) : Bool :=
  (getAvailableColumns entityType).contains column

/-- Embedding of `getInvalidColumns` (table-views.ts lines 868-871). -/
def getInvalidColumns (entityType : String) (columns : List String) : List String :=
  columns.filter fun col => !(getAvailableColumns entityType).contains col

/-- Embedding of `CreateTableViewDto` (table-views.ts lines 432-444); the entity type
is carried as its string value, with the empty string standing for a
missing (falsy) value. -/
structure CreateTableViewDto where
  name : String
  entityType : String
  visibleColumns : List String
  isDefault : Bool
deriving DecidableEq, Repr

/-- Embedding of `ViewValidationError` (table-views.ts lines 880-883). -/
structure ViewValidationError where
  field : String
  message : String
deriving DecidableEq, Repr

/-- ASCII apostrophe, spelled via its code point, for the French
validation messages. -/
def apos : String := (Char.ofNat 39).toString

/-- JavaScript `string.trim()`: strip leading and trailing whitespace
from the character list. -/
def jsTrim (s : List Char) : List Char :=
  ((s.dropWhile Char.isWhitespace).reverse.dropWhile Char.isWhitespace).reverse

/-- The name checks of `validateCreateView` (table-views.ts lines
893-903): required (non-blank after trimming), else at most 50
characters. -/
def nameErrors (data : CreateTableViewDto) : List ViewValidationError :=
  if data.name = "" ∨ (jsTrim data.name.data).length = 0 then
    [⟨"name", "Le nom de la vue est obligatoire"⟩]
  else if data.name.length > 50 then
    [⟨"name", "Le nom ne peut pas dépasser 50 caractères"⟩]
  else []

/-- The entity-type checks of `validateCreateView` (lines 906-916):
required (truthy), else a member of the enumeration. -/
def entityTypeErrors (data : CreateTableViewDto) : List ViewValidationError :=
  if data.entityType = "" then
    [⟨"entityType", "Le type d" ++ apos ++ "entité est obligatoire"⟩]
  else if (entityTypeValues.contains data.entityType) = false then
    [⟨"entityType", "Type d" ++ apos ++ "entité invalide"⟩]
  else []

/-- The column checks of `validateCreateView` (lines 919-938):
non-empty, at most 20, and — when the entity type is truthy — no entry
outside the available columns of that entity type. -/
def visibleColumnsErrors (data : CreateTableViewDto) : List ViewValidationError :=
  if data.visibleColumns = [] then
    [⟨"visibleColumns", "Au moins 1 colonne doit être visible"⟩]
  else if data.visibleColumns.length > 20 then
    [⟨"visibleColumns", "Maximum 20 colonnes peuvent être visibles"⟩]
  else if data.entityType ≠ "" then
    if getInvalidColumns data.entityType data.visibleColumns ≠ [] then
      [⟨"visibleColumns", "Colonnes invalides : " ++ String.intercalate (", ")
          (getInvalidColumns data.entityType data.visibleColumns)⟩]
    else []
  else []

/-- Embedding of `validateCreateView` (table-views.ts lines 889-941): the errors
pushed by the name, entity-type and column checks, in that order. -/
def validateCreateView (data : CreateTableViewDto) : List ViewValidationError :=
  nameErrors data ++ entityTypeErrors data ++ visibleColumnsErrors data

-- ============================================================
-- Theorems: load-more trigger (C1)
-- ============================================================

/-- C1 counterexample: with `hasMore = true`, `isFetchingMore = false`,
`itemCount = 100` and `scrollThresholdRows = 10`, the claim predicts the
trigger fires at `endIndex = 89` (since `89 ≥ 100 - 1 - 10`), but the
condition in the code `endIndex ≥ itemCount - threshold` is false there. -/
theorem onNearEnd_trigger_counterexample :
    shouldRequestMore 89 100 true false 10 = false := by decide

/-- C1 (amended): the load-more decision returns true iff `hasMore` is
true, `isFetchingMore` is false, and `endIndex ≥ itemCount -
scrollThresholdRows` (no `- 1`); with `hasMore = true`, `isFetchingMore
= false`, `scrollThresholdRows = 10`, `itemCount = 100` it is true
exactly when `endIndex ≥ 90`, and it is false whenever `isFetchingMore`
is true, regardless of `endIndex`. -/
theorem onNearEnd_trigger_characterization :
    (∀ (e n : Nat) (hm f : Bool) (th : Nat),
      shouldRequestMore e n hm f th = true
        ↔ hm = true ∧ f = false ∧ (n : Int) - (th : Int) ≤ (e : Int)) ∧
    (∀ e : Nat, shouldRequestMore e 100 true false 10 = true ↔ 90 ≤ e) ∧
    (∀ (e n th : Nat) (hm : Bool), shouldRequestMore e n hm true th = false) := by
  refine ⟨fun e n hm f th => ?_, fun e => ?_, fun e n th hm => ?_⟩
  · simp [shouldRequestMore, and_assoc]
  · simp [shouldRequestMore]
  · simp [shouldRequestMore]

-- ============================================================
-- Theorems: windowing calculator (C2, C3, C4)
-- ============================================================

/-- C2: `computeWindow` follows the fixed-row-height algorithm:
`startIndex = max(0, firstVisible - overscan)` and `endIndex =
min(itemCount - 1, firstVisible + visibleCount + overscan)` with
`firstVisible = floor(scroll / rowHeight)` clamped to `[0, itemCount-1]`
and `visibleCount = ceil(viewport / rowHeight)`; in particular with 5000
items, rowHeight 48, viewport 600, overscan 5 and scroll offset 4800 it
yields `startIndex = 95` and `endIndex = 118`. (Natural subtraction on
`Nat` realizes the `max(0, ·)` clamps.) -/
theorem computeWindow_follows_spec_algorithm :
    (∀ (n : Nat) (scroll viewport rowH : Rat) (ov : Nat),
      (computeWindow n scroll viewport rowH ov).startIndex
          = min (Int.toNat ⌊scroll / rowH⌋) (n - 1) - ov ∧
      (computeWindow n scroll viewport rowH ov).endIndex
          = min (n - 1) (min (Int.toNat ⌊scroll / rowH⌋) (n - 1)
              + Int.toNat ⌈viewport / rowH⌉ + ov)) ∧
    (computeWindow 5000 4800 600 48 5).startIndex = 95 ∧
    (computeWindow 5000 4800 600 48 5).endIndex = 118 := by
  have h1 : ⌊(4800 : Rat) / 48⌋ = 100 := by norm_num
  have h2 : ⌈(600 : Rat) / 48⌉ = 13 := by
    rw [Int.ceil_eq_iff]
    constructor <;> norm_num
  refine ⟨fun n scroll viewport rowH ov => ?_, ?_, ?_⟩
  · by_cases hn : n = 0
    · subst hn
      simp [computeWindow]
    · simp [computeWindow, hn]
  · simp [computeWindow, h1, h2]
  · simp [computeWindow, h1, h2]

/-- C3: for `itemCount ≥ 0`, `rowHeight > 0`, `viewport > 0`,
`overscan ≥ 0` and `0 ≤ scroll ≤ itemCount * rowHeight`: when
`itemCount > 0` the window satisfies `startIndex ≤ endIndex ≤
itemCount - 1` and its row list covers exactly the contiguous index
range `[startIndex, endIndex]`; when `itemCount = 0` the result is an
empty window with `totalExtent = 0`. -/
theorem computeWindow_bounds (n : Nat) (scroll viewport rowH : Rat) (ov : Nat)
    (hr : 0 < rowH) (hv : 0 < viewport) (hs0 : 0 ≤ scroll)
    (hs1 : scroll ≤ (n : Rat) * rowH) :
    (0 < n →
      (computeWindow n scroll viewport rowH ov).startIndex
          ≤ (computeWindow n scroll viewport rowH ov).endIndex ∧
      (computeWindow n scroll viewport rowH ov).endIndex ≤ n - 1 ∧
      (computeWindow n scroll viewport rowH ov).rows.map (fun r => r.1)
          = List.range' (computeWindow n scroll viewport rowH ov).startIndex
              ((computeWindow n scroll viewport rowH ov).endIndex
                - (computeWindow n scroll viewport rowH ov).startIndex + 1)) ∧
    (n = 0 →
      (computeWindow n scroll viewport rowH ov).totalExtent = 0 ∧
      (computeWindow n scroll viewport rowH ov).rows = []) := by
  constructor
  · intro hn
    have hne : n ≠ 0 := hn.ne'
    simp only [computeWindow, hne, if_false]
    refine ⟨?_, ?_, ?_⟩
    · have hle : min (Int.toNat ⌊scroll / rowH⌋) (n - 1) ≤ n - 1 := min_le_right _ _
      omega
    · exact min_le_left _ _
    · simp [List.map_map, Function.comp_def]
  · intro hn
    subst hn
    simp [computeWindow]

/-- C3 witness: the bounds theorem instantiated at the concrete scenario
5000 items, scroll 4800, viewport 600, rowHeight 48, overscan 5. -/
theorem computeWindow_bounds_witness :
    (0 < 5000 →
      (computeWindow 5000 4800 600 48 5).startIndex
          ≤ (computeWindow 5000 4800 600 48 5).endIndex ∧
      (computeWindow 5000 4800 600 48 5).endIndex ≤ 5000 - 1 ∧
      (computeWindow 5000 4800 600 48 5).rows.map (fun r => r.1)
          = List.range' (computeWindow 5000 4800 600 48 5).startIndex
              ((computeWindow 5000 4800 600 48 5).endIndex
                - (computeWindow 5000 4800 600 48 5).startIndex + 1)) ∧
    (5000 = 0 →
      (computeWindow 5000 4800 600 48 5).totalExtent = 0 ∧
      (computeWindow 5000 4800 600 48 5).rows = []) :=
  computeWindow_bounds 5000 4800 600 48 5 (by norm_num) (by norm_num)
    (by norm_num) (by norm_num)

/-- C4: with the item count, viewport height, (positive) row height and
overscan fixed, both `startIndex` and `endIndex` of the computed window
are monotone in the scroll offset. -/
theorem computeWindow_monotone_in_scroll (n : Nat) (s1 s2 viewport rowH : Rat)
    (ov : Nat) (hr : 0 < rowH) (h : s1 ≤ s2) :
    (computeWindow n s1 viewport rowH ov).startIndex
        ≤ (computeWindow n s2 viewport rowH ov).startIndex ∧
    (computeWindow n s1 viewport rowH ov).endIndex
        ≤ (computeWindow n s2 viewport rowH ov).endIndex := by
  have hdiv : s1 / rowH ≤ s2 / rowH := (div_le_div_iff_of_pos_right hr).mpr h
  have hfl : Int.toNat ⌊s1 / rowH⌋ ≤ Int.toNat ⌊s2 / rowH⌋ :=
    Int.toNat_le_toNat (Int.floor_le_floor hdiv)
  by_cases hn : n = 0
  · subst hn
    simp [computeWindow]
  · simp only [computeWindow, hn, if_false]
    omega

/-- C4 witness: monotonicity applied to scroll offsets 4800 ≤ 9600 in
the concrete 5000-item scenario. -/
theorem computeWindow_monotone_in_scroll_witness :
    (computeWindow 5000 4800 600 48 5).startIndex
        ≤ (computeWindow 5000 9600 600 48 5).startIndex ∧
    (computeWindow 5000 4800 600 48 5).endIndex
        ≤ (computeWindow 5000 9600 600 48 5).endIndex :=
  computeWindow_monotone_in_scroll 5000 4800 9600 600 48 5 (by norm_num) (by norm_num)

-- ============================================================
-- Theorems: scroll position label (C5)
-- ============================================================

/-- C5 counterexample: the label computed for the window (149, 169) with
5000 total rows is not the English string claimed by the spec; the
component renders a French label. -/
theorem computeLabel_counterexample :
    computeLabel (149, 169) 5000 ≠ some ("rows 150-170 of 5000") := by decide

/-- C5 (amended): the label computation returns none when `totalRows`
is 0 and otherwise the string `Lignes {startIndex+1}-{min(endIndex+1,
totalRows)} sur {totalRows}` (French wording, same 1-based positions and
end cap as claimed); in particular the window (149, 169) with 5000 total
rows yields `Lignes 150-170 sur 5000`. -/
theorem computeLabel_characterization :
    (∀ w : Nat × Nat, computeLabel w 0 = none) ∧
    (∀ s e t : Nat,
      computeLabel (s, e) (t + 1)
        = some ("Lignes " ++ toString (s + 1) ++ "-"
            ++ toString (min (e + 1) (t + 1)) ++ " sur " ++ toString (t + 1))) ∧
    computeLabel (149, 169) 5000 = some ("Lignes 150-170 sur 5000") := by
  refine ⟨fun w => rfl, fun s e t => ?_, by decide⟩
  simp [computeLabel, scrollPositionIndicator]


-- ============================================================
-- Theorems: CSV export (C6)
-- ============================================================

theorem mem_csvDouble {c : Char} {f : List Char} : c ∈ csvDouble f ↔ c ∈ f := by
  induction f with
  | nil => simp [csvDouble]
  | cons d ds ih =>
    by_cases hd : d = '"'
    · subst hd
      have hshape : csvDouble ('"' :: ds) = '"' :: '"' :: csvDouble ds := by
        simp [csvDouble]
      rw [hshape]
      simp only [List.mem_cons, ih]
      tauto
    · simp [csvDouble, hd, ih]

theorem csvDouble_of_no_quote {f : List Char} (h : ∀ c ∈ f, c ≠ '"') :
    csvDouble f = f := by
  induction f with
  | nil => rfl
  | cons d ds ih =>
    have hd : d ≠ '"' := h d (by simp)
    simp only [csvDouble, if_neg hd, List.cons.injEq, true_and]
    exact ih fun c hc => h c (by simp [hc])

theorem csvDouble_ne_nil {f : List Char} (h : f ≠ []) : csvDouble f ≠ [] := by
  cases f with
  | nil => exact absurd rfl h
  | cons c cs =>
    simp only [csvDouble]
    split <;> simp

theorem escapeCSVField_ne_nil {f : List Char} (h : f ≠ []) : escapeCSVField f ≠ [] := by
  simp only [escapeCSVField]
  split
  · simp
  · exact h

theorem escapeCSVLabel_ne_nil {f : List Char} (h : f ≠ []) : escapeCSVLabel f ≠ [] := by
  simp only [escapeCSVLabel]
  split
  · simp
  · exact csvDouble_ne_nil h

theorem csvDouble_any_label (f : List Char) :
    (csvDouble f).any csvSpecialLabel = f.any csvSpecialLabel := by
  rw [Bool.eq_iff_iff]
  simp only [List.any_eq_true]
  constructor
  · rintro ⟨c, hc, hp⟩
    exact ⟨c, mem_csvDouble.mp hc, hp⟩
  · rintro ⟨c, hc, hp⟩
    exact ⟨c, mem_csvDouble.mpr hc, hp⟩

theorem escapeCSVLabel_eq (f : List Char) :
    escapeCSVLabel f
      = if f.any csvSpecialLabel then '"' :: (csvDouble f ++ ['"']) else f := by
  simp only [escapeCSVLabel, csvDouble_any_label]
  by_cases hq : f.any csvSpecialLabel
  · simp [hq]
  · have hnq : ∀ c ∈ f, c ≠ '"' := by
      intro c hc hcq
      apply hq
      simp only [List.any_eq_true]
      exact ⟨c, hc, by simp [csvSpecialLabel, hcq]⟩
    simp [hq, csvDouble_of_no_quote hnq]

theorem parseQuotedBody_roundtrip (f : List Char) :
    ∀ rest : List Char, rest.head? ≠ some '"' →
      parseQuotedBody (csvDouble f ++ '"' :: rest) = (f, rest) := by
  induction f with
  | nil =>
    intro rest h
    cases rest with
    | nil => rfl
    | cons r rs =>
      have hr : ¬ r = '"' := fun hr => h (by simp [hr])
      simp [csvDouble, parseQuotedBody, hr]
  | cons c cs ih =>
    intro rest h
    by_cases hc : c = '"'
    · subst hc
      have h2 := ih rest h
      have hshape : csvDouble ('"' :: cs) ++ '"' :: rest
          = '"' :: '"' :: (csvDouble cs ++ '"' :: rest) := by
        simp [csvDouble]
      rw [hshape]
      simp [parseQuotedBody, h2]
    · rcases hx : csvDouble cs ++ '"' :: rest with _ | ⟨d, ds⟩
      · exact absurd hx (by simp)
      · have hsh : csvDouble (c :: cs) ++ '"' :: rest = c :: d :: ds := by
          simp [csvDouble, hc, hx]
        rw [hsh]
        simp only [parseQuotedBody, if_neg hc]
        rw [← hx, ih rest h]

theorem parseUnquoted_roundtrip (f : List Char) :
    ∀ rest : List Char,
      (∀ c ∈ f, ¬(c = ',' ∨ c = '\n')) →
      (rest = [] ∨ rest.head? = some ',' ∨ rest.head? = some '\n') →
      parseUnquoted (f ++ rest) = (f, rest) := by
  induction f with
  | nil =>
    intro rest _ hrest
    rcases rest with _ | ⟨r, rs⟩
    · rfl
    · have hr : r = ',' ∨ r = '\n' := by
        rcases hrest with h | h | h
        · simp at h
        · exact Or.inl (by simpa using h)
        · exact Or.inr (by simpa using h)
      simp [parseUnquoted, hr]
  | cons c cs ih =>
    intro rest hf hrest
    have hc : ¬(c = ',' ∨ c = '\n') := hf c (by simp)
    have ih2 := ih rest (fun d hd => hf d (by simp [hd])) hrest
    simp [parseUnquoted, hc, ih2]

theorem parseCSVField_escapeField (f : List Char) :
    ∀ rest : List Char,
      (rest = [] ∨ rest.head? = some ',' ∨ rest.head? = some '\n') →
      parseCSVField (escapeCSVField f ++ rest) = (f, rest) := by
  intro rest hrest
  have hhead : rest.head? ≠ some '"' := by
    rcases hrest with h | h | h <;> simp [h]
  by_cases hq : f.any csvSpecialField
  · simp only [escapeCSVField, if_pos hq, List.cons_append, List.append_assoc,
      List.singleton_append, parseCSVField, if_pos rfl]
    exact parseQuotedBody_roundtrip f rest hhead
  · have hall : ∀ c ∈ f, csvSpecialField c = false := by
      intro c hc
      by_contra hcc
      apply hq
      simp only [List.any_eq_true]
      exact ⟨c, hc, by revert hcc; cases csvSpecialField c <;> simp⟩
    simp only [escapeCSVField, if_neg hq]
    cases f with
    | nil =>
      rcases rest with _ | ⟨r, rs⟩
      · rfl
      · have hr : r = ',' ∨ r = '\n' := by
          rcases hrest with h | h | h
          · simp at h
          · exact Or.inl (by simpa using h)
          · exact Or.inr (by simpa using h)
        have hrq : ¬ r = '"' := by
          rcases hr with h | h <;> simp [h]
        simp [parseCSVField, hrq, parseUnquoted, hr]
    | cons c cs =>
      have hcs : csvSpecialField c = false := hall c (by simp)
      have hcq : ¬ c = '"' := by
        intro hcq
        rw [hcq] at hcs
        simp [csvSpecialField] at hcs
      have hsep : ∀ d ∈ c :: cs, ¬(d = ',' ∨ d = '\n') := by
        intro d hd hdd
        have := hall d hd
        rcases hdd with h | h <;> simp [csvSpecialField, h] at this
      simp only [List.cons_append, parseCSVField, if_neg hcq]
      have := parseUnquoted_roundtrip (c :: cs) rest hsep hrest
      simpa using this

theorem parseCSVField_escapeLabel (f : List Char) :
    ∀ rest : List Char,
      (rest = [] ∨ rest.head? = some ',' ∨ rest.head? = some '\n') →
      parseCSVField (escapeCSVLabel f ++ rest) = (f, rest) := by
  intro rest hrest
  have hhead : rest.head? ≠ some '"' := by
    rcases hrest with h | h | h <;> simp [h]
  rw [escapeCSVLabel_eq]
  by_cases hq : f.any csvSpecialLabel
  · simp only [if_pos hq, List.cons_append, List.append_assoc,
      List.singleton_append, parseCSVField, if_pos rfl]
    exact parseQuotedBody_roundtrip f rest hhead
  · have hall : ∀ c ∈ f, csvSpecialLabel c = false := by
      intro c hc
      by_contra hcc
      apply hq
      simp only [List.any_eq_true]
      exact ⟨c, hc, by revert hcc; cases csvSpecialLabel c <;> simp⟩
    simp only [if_neg hq]
    cases f with
    | nil =>
      rcases rest with _ | ⟨r, rs⟩
      · rfl
      · have hr : r = ',' ∨ r = '\n' := by
          rcases hrest with h | h | h
          · simp at h
          · exact Or.inl (by simpa using h)
          · exact Or.inr (by simpa using h)
        have hrq : ¬ r = '"' := by
          rcases hr with h | h <;> simp [h]
        simp [parseCSVField, hrq, parseUnquoted, hr]
    | cons c cs =>
      have hcs : csvSpecialLabel c = false := hall c (by simp)
      have hcq : ¬ c = '"' := by
        intro hcq
        rw [hcq] at hcs
        simp [csvSpecialLabel] at hcs
      have hsep : ∀ d ∈ c :: cs, ¬(d = ',' ∨ d = '\n') := by
        intro d hd hdd
        have := hall d hd
        rcases hdd with h | h <;> simp [csvSpecialLabel, h] at this
      simp only [List.cons_append, parseCSVField, if_neg hcq]
      have := parseUnquoted_roundtrip (c :: cs) rest hsep hrest
      simpa using this

theorem csvJoin_length (sep : Char) (xs : List (List Char)) :
    xs.length ≤ (csvJoin sep xs).length + 1 := by
  induction xs with
  | nil => simp [csvJoin]
  | cons x ys ih =>
    cases ys with
    | nil => simp [csvJoin]
    | cons y ys2 =>
      have hj : csvJoin sep (x :: y :: ys2) = x ++ sep :: csvJoin sep (y :: ys2) := rfl
      rw [hj]
      simp only [List.length_cons, List.length_append] at ih ⊢
      omega

theorem csvLineWith_length (esc : List Char → List Char) (fields : List (List Char)) :
    fields.length ≤ (csvLineWith esc fields).length + 1 := by
  have h := csvJoin_length ',' (fields.map esc)
  simpa [csvLineWith] using h

theorem csvLineWith_ne_nil (esc : List Char → List Char)
    (hne : ∀ f, f ≠ ([] : List Char) → esc f ≠ []) (fields : List (List Char))
    (h1 : fields ≠ []) (h2 : fields ≠ [[]]) :
    csvLineWith esc fields ≠ [] := by
  cases fields with
  | nil => exact absurd rfl h1
  | cons f fs =>
    cases fs with
    | nil =>
      have hf : f ≠ [] := by
        intro h
        exact h2 (by rw [h])
      have hu : csvLineWith esc [f] = esc f := rfl
      rw [hu]
      exact hne f hf
    | cons g gs =>
      have hu : csvLineWith esc (f :: g :: gs)
          = esc f ++ ',' :: csvLineWith esc (g :: gs) := rfl
      rw [hu]
      simp

theorem parseRecordFuel_line (esc : List Char → List Char)
    (hesc : ∀ f rest, (rest = [] ∨ rest.head? = some ',' ∨ rest.head? = some '\n') →
      parseCSVField (esc f ++ rest) = (f, rest)) :
    ∀ (fields : List (List Char)) (fuel : Nat) (rest : List Char),
      fields ≠ [] → fields.length ≤ fuel →
      (rest = [] ∨ rest.head? = some '\n') →
      parseRecordFuel fuel (csvLineWith esc fields ++ rest) = (fields, rest.tail) := by
  intro fields
  induction fields with
  | nil =>
    intro fuel rest h1 _ _
    exact absurd rfl h1
  | cons f fs ih =>
    intro fuel rest _ hfuel hrest
    cases fuel with
    | zero => simp at hfuel
    | succ k =>
      cases fs with
      | nil =>
        have hline : csvLineWith esc [f] ++ rest = esc f ++ rest := rfl
        have hp : parseCSVField (esc f ++ rest) = (f, rest) := by
          apply hesc
          rcases hrest with h | h
          · exact Or.inl h
          · exact Or.inr (Or.inr h)
        rw [hline]
        rcases hrest with h | h
        · subst h
          simp only [List.append_nil] at hp ⊢
          simp [parseRecordFuel, hp]
        · rcases rest with _ | ⟨r, rs⟩
          · simp at h
          · have hr : r = '\n' := by simpa using h
            subst hr
            have hne1 : ¬ ('\n' : Char) = ',' := by decide
            simp [parseRecordFuel, hp, hne1]
      | cons g gs =>
        have hline : csvLineWith esc (f :: g :: gs) ++ rest
            = esc f ++ (',' :: (csvLineWith esc (g :: gs) ++ rest)) := by
          have hu : csvLineWith esc (f :: g :: gs)
              = esc f ++ ',' :: csvLineWith esc (g :: gs) := rfl
          rw [hu]
          simp
        have hp : parseCSVField (esc f ++ (',' :: (csvLineWith esc (g :: gs) ++ rest)))
            = (f, ',' :: (csvLineWith esc (g :: gs) ++ rest)) := by
          apply hesc
          exact Or.inr (Or.inl rfl)
        have hrec := ih k rest (by simp)
          (by simpa using Nat.le_of_succ_le_succ hfuel) hrest
        rw [hline]
        simp [parseRecordFuel, hp, hrec]

theorem parseRecordsFuel_nil (fuel : Nat) : parseRecordsFuel fuel [] = [] := by
  cases fuel <;> rfl

theorem parseRecordsFuel_last (esc : List Char → List Char)
    (hesc : ∀ f rest, (rest = [] ∨ rest.head? = some ',' ∨ rest.head? = some '\n') →
      parseCSVField (esc f ++ rest) = (f, rest))
    (hne : ∀ f, f ≠ ([] : List Char) → esc f ≠ [])
    (fields : List (List Char)) (k : Nat)
    (h1 : fields ≠ []) (h2 : fields ≠ [[]]) :
    parseRecordsFuel (k + 1) (csvLineWith esc fields) = [fields] := by
  have hnn : csvLineWith esc fields ≠ [] := csvLineWith_ne_nil esc hne fields h1 h2
  rcases hx : csvLineWith esc fields with _ | ⟨c, cs⟩
  · exact absurd hx hnn
  · have hrec : parseCSVRecord (c :: cs) = (fields, []) := by
      rw [← hx]
      unfold parseCSVRecord
      have h := parseRecordFuel_line esc hesc fields
        ((csvLineWith esc fields).length + 1) [] h1
        (csvLineWith_length esc fields) (Or.inl rfl)
      simpa using h
    simp [parseRecordsFuel, hrec, parseRecordsFuel_nil]

theorem parseRecordsFuel_cons (esc : List Char → List Char)
    (hesc : ∀ f rest, (rest = [] ∨ rest.head? = some ',' ∨ rest.head? = some '\n') →
      parseCSVField (esc f ++ rest) = (f, rest))
    (fields : List (List Char)) (k : Nat) (X : List Char)
    (h1 : fields ≠ []) :
    parseRecordsFuel (k + 1) (csvLineWith esc fields ++ '\n' :: X)
      = fields :: parseRecordsFuel k X := by
  have htext : csvLineWith esc fields ++ '\n' :: X ≠ [] := by simp
  rcases hx : csvLineWith esc fields ++ '\n' :: X with _ | ⟨c, cs⟩
  · exact absurd hx htext
  · have hlen : fields.length ≤ (csvLineWith esc fields ++ '\n' :: X).length + 1 := by
      have h := csvLineWith_length esc fields
      simp only [List.length_append, List.length_cons]
      omega
    have hrec : parseCSVRecord (c :: cs) = (fields, X) := by
      rw [← hx]
      unfold parseCSVRecord
      have h := parseRecordFuel_line esc hesc fields
        ((csvLineWith esc fields ++ '\n' :: X).length + 1) ('\n' :: X)
        h1 hlen (Or.inr rfl)
      simpa using h
    simp [parseRecordsFuel, hrec]

theorem parseRecordsFuel_rows :
    ∀ (rows : List (List (List Char))) (fuel : Nat),
      (∀ r ∈ rows, r ≠ ([] : List (List Char)) ∧ r ≠ [[]]) → rows.length ≤ fuel →
      parseRecordsFuel fuel (csvJoin '\n' (rows.map csvLine)) = rows := by
  intro rows
  induction rows with
  | nil =>
    intro fuel _ _
    simpa [csvJoin] using parseRecordsFuel_nil fuel
  | cons r rs ih =>
    intro fuel hval hfuel
    obtain ⟨hr1, hr2⟩ := hval r (by simp)
    cases fuel with
    | zero => simp at hfuel
    | succ k =>
      cases rs with
      | nil =>
        have hu : csvJoin '\n' ([r].map csvLine) = csvLineWith escapeCSVField r := rfl
        rw [hu]
        exact parseRecordsFuel_last escapeCSVField parseCSVField_escapeField
          (fun f hf => escapeCSVField_ne_nil hf) r k hr1 hr2
      | cons s rs2 =>
        have hsh : csvJoin '\n' ((r :: s :: rs2).map csvLine)
            = csvLineWith escapeCSVField r
              ++ '\n' :: csvJoin '\n' ((s :: rs2).map csvLine) := rfl
        rw [hsh]
        rw [parseRecordsFuel_cons escapeCSVField parseCSVField_escapeField r k _ hr1]
        congr 1
        exact ih k (fun x hx => hval x (by simp [hx]))
          (by simpa using Nat.le_of_succ_le_succ hfuel)

theorem csv_export_roundtrip (labels : List (List Char))
    (rows : List (List (List Char)))
    (hval : ∀ r ∈ labels :: rows, r ≠ ([] : List (List Char)) ∧ r ≠ [[]]) :
    parseCSV (exportToCSVContent labels rows) = labels :: rows := by
  obtain ⟨hl1, hl2⟩ := hval labels (by simp)
  cases rows with
  | nil =>
    have hsh : exportToCSVContent labels [] = csvLineWith escapeCSVLabel labels := rfl
    unfold parseCSV
    rw [hsh]
    exact parseRecordsFuel_last escapeCSVLabel parseCSVField_escapeLabel
      (fun f hf => escapeCSVLabel_ne_nil hf) labels _ hl1 hl2
  | cons r rs =>
    have hsh : exportToCSVContent labels (r :: rs)
        = csvLineWith escapeCSVLabel labels
          ++ '\n' :: csvJoin '\n' ((r :: rs).map csvLine) := rfl
    unfold parseCSV
    rw [hsh]
    rw [parseRecordsFuel_cons escapeCSVLabel parseCSVField_escapeLabel labels _ _ hl1]
    congr 1
    apply parseRecordsFuel_rows
    · intro x hx
      exact hval x (by simp [hx])
    · have h1 := csvJoin_length '\n' ((r :: rs).map csvLine)
      simp only [List.length_map, List.length_cons, List.length_append] at h1 ⊢
      omega

/-- C6 counterexample: a data cell consisting of a single carriage
return contains no comma, double quote or newline, yet `exportToCSV`
wraps it in double quotes rather than emitting it unchanged. -/
theorem csv_escape_counterexample :
    escapeCSVField ['\r'] ≠ ['\r'] ∧
    ¬('\r' = ',' ∨ '\r' = '"' ∨ '\r' = '\n') := by decide

/-- C6 (amended): a data cell is wrapped in double quotes with internal
double quotes doubled iff it contains a comma, double quote, newline or
carriage return, and emitted unchanged otherwise; a header label is
wrapped iff it contains a comma, double quote or newline (carriage
return is not checked for labels). The field `a,b"c` is escaped as
`"a,b""c"`, and parsing the exported text with the standard CSV rule
recovers the original header labels and field values (for tables with at
least one column whose records are not a single empty field). -/
theorem csv_escape_and_roundtrip :
    (∀ f : List Char, f.any csvSpecialField = false → escapeCSVField f = f) ∧
    (∀ f : List Char, f.any csvSpecialField = true →
      escapeCSVField f = '"' :: (csvDouble f ++ ['"'])) ∧
    (∀ f : List Char, f.any csvSpecialLabel = false → escapeCSVLabel f = f) ∧
    (∀ f : List Char, f.any csvSpecialLabel = true →
      escapeCSVLabel f = '"' :: (csvDouble f ++ ['"'])) ∧
    escapeCSVField (("a,b\"c").data) = ("\"a,b\"\"c\"").data ∧
    (∀ (labels : List (List Char)) (rows : List (List (List Char))),
      (∀ r ∈ labels :: rows, r ≠ ([] : List (List Char)) ∧ r ≠ [[]]) →
      parseCSV (exportToCSVContent labels rows) = labels :: rows) := by
  refine ⟨fun f hf => ?_, fun f hf => ?_, fun f hf => ?_, fun f hf => ?_, by decide,
    csv_export_roundtrip⟩
  · simp [escapeCSVField, hf]
  · simp [escapeCSVField, hf]
  · rw [escapeCSVLabel_eq]
    simp [hf]
  · rw [escapeCSVLabel_eq]
    simp [hf]

/-- C6 witness: the escaping characterization and the round trip
evaluated at concrete fields and a concrete one-column table. -/
theorem csv_escape_and_roundtrip_witness :
    escapeCSVField (("plain").data) = ("plain").data ∧
    escapeCSVField (("a,b").data) = '"' :: (csvDouble (("a,b").data) ++ ['"']) ∧
    escapeCSVLabel (("head").data) = ("head").data ∧
    escapeCSVLabel (("he,ad").data) = '"' :: (csvDouble (("he,ad").data) ++ ['"']) ∧
    parseCSV (exportToCSVContent [("col").data] [[("a,b\"c").data]])
      = [("col").data] :: [[("a,b\"c").data]] :=
  ⟨csv_escape_and_roundtrip.1 _ (by decide),
   csv_escape_and_roundtrip.2.1 _ (by decide),
   csv_escape_and_roundtrip.2.2.1 _ (by decide),
   csv_escape_and_roundtrip.2.2.2.1 _ (by decide),
   csv_escape_and_roundtrip.2.2.2.2.2 _ _ (by decide)⟩

-- ============================================================
-- Theorems: cell value resolution (C7)
-- ============================================================

/-- C7 counterexample: for the nested item `{a: {b: "x"}}` and the
column key `a.b` (no custom render), the plain renderer walks the dot
path and shows `x`, but the virtualized row renderer looks the whole key
`a.b` up as a single property and shows the placeholder `-`: it does not
split the key on dots. -/
theorem virtualizedRow_nested_key_counterexample :
    virtualizedCellContent none (("a.b").data)
        (JsValue.obj [((("a").data),
          JsValue.obj [((("b").data), JsValue.str (("x").data))])]) = "-" ∧
    renderCellContent none (("a.b").data)
        (JsValue.obj [((("a").data),
          JsValue.obj [((("b").data), JsValue.str (("x").data))])]) = "x" ∧
    ("-" : String) ≠ "x" :=
  ⟨rfl, rfl, by decide⟩

/-- C7 (amended): with a custom render function both renderers use its
result verbatim. Without one, the plain renderer splits the key on dots
and walks the path into the item, showing the placeholder `-` whenever
the walk short-circuits to null/undefined; the virtualized row renderer
instead reads the whole key as one direct property (no dot-path
walking), showing `-` exactly when that property is null/undefined. -/
theorem cell_rendering_characterization :
    (∀ (r : JsValue → String) (key : List Char) (item : JsValue),
      renderCellContent (some r) key item = r item ∧
      virtualizedCellContent (some r) key item = r item) ∧
    (∀ (key : List Char) (item : JsValue),
      walkPath item (splitOn ('.') key) = JsValue.null →
      renderCellContent none key item = "-") ∧
    (∀ (key : List Char) (item : JsValue),
      jsGet item key = JsValue.null →
      virtualizedCellContent none key item = "-") ∧
    (∀ (key : List Char) (item : JsValue) (v : JsValue),
      walkPath item (splitOn ('.') key) = v → v ≠ JsValue.null →
      renderCellContent none key item
        = if jsString v = "" then "-" else jsString v) ∧
    (∀ (key : List Char) (item : JsValue) (v : JsValue),
      jsGet item key = v → v ≠ JsValue.null →
      virtualizedCellContent none key item = jsString v) := by
  refine ⟨fun r key item => ⟨rfl, rfl⟩, fun key item h => ?_, fun key item h => ?_,
    fun key item v h hv => ?_, fun key item v h hv => ?_⟩
  · simp [renderCellContent, h]
  · simp [virtualizedCellContent, h]
  · cases v with
    | null => exact absurd rfl hv
    | str s => simp [renderCellContent, h]
    | num n => simp [renderCellContent, h]
    | obj fields => simp [renderCellContent, h]
  · cases v with
    | null => exact absurd rfl hv
    | str s => simp [virtualizedCellContent, h]
    | num n => simp [virtualizedCellContent, h]
    | obj fields => simp [virtualizedCellContent, h]

/-- C7 witness: the short-circuit cases of the characterization applied
to the empty object, and the custom-render case at a constant render
function. -/
theorem cell_rendering_characterization_witness :
    renderCellContent none (("a.b").data) (JsValue.obj []) = "-" ∧
    virtualizedCellContent none (("a.b").data) (JsValue.obj []) = "-" ∧
    renderCellContent (some fun _ => ("custom"))
        (("a.b").data) (JsValue.obj []) = ("custom") :=
  ⟨cell_rendering_characterization.2.1 _ _ rfl,
   cell_rendering_characterization.2.2.1 _ _ rfl,
   (cell_rendering_characterization.1 _ _ _).1⟩

-- ============================================================
-- Theorems: scroll-indicator timer (C9)
-- ============================================================

/-- C9: the cancel-and-restart debounce discipline of the indicator
(with the indicator enabled by configuration): after any scroll trace
ending with an event at time `t`, the state is visible with exactly one
pending hide-timer at `t + 1500`, regardless of earlier events — each
event cancels the previous timer and schedules a new one. Observing at
time `u` shows the indicator iff `u < t + 1500`: the indicator is
visible on any scroll event, stays visible while events keep arriving
within the quiet period, and is hidden exactly once 1.5 time-units
(1500 ms) pass after the last event; with no scroll events it is
hidden. -/
theorem scroll_indicator_debounce :
    (∀ (ts : List Nat) (t : Nat),
      runScrollTrace true (ts ++ [t]) indicatorInit = ⟨true, some (t + 1500)⟩) ∧
    (∀ (ts : List Nat) (t u : Nat),
      observeIndicator true (ts ++ [t]) u = decide (u < t + 1500)) ∧
    (∀ u : Nat, observeIndicator true [] u = false) := by
  have hrun : ∀ (ts : List Nat) (t : Nat) (s : IndicatorState),
      runScrollTrace true (ts ++ [t]) s = ⟨true, some (t + 1500)⟩ := by
    intro ts
    induction ts with
    | nil => intro t s; rfl
    | cons a as ih =>
      intro t s
      have h := ih t (handleScroll true a (fireTimer a s))
      simpa [runScrollTrace] using h
  refine ⟨fun ts t => hrun ts t indicatorInit, fun ts t u => ?_, fun u => rfl⟩
  unfold observeIndicator
  rw [hrun]
  by_cases h : t + 1500 ≤ u
  · have h2 : ¬ u < t + 1500 := by omega
    simp [fireTimer, h, h2]
  · have h2 : u < t + 1500 := by omega
    simp [fireTimer, h, h2]

-- ============================================================
-- Theorems: saved-view validation (C10)
-- ============================================================

theorem getInvalidColumns_nil_iff (et : String) (cols : List String) :
    getInvalidColumns et cols = [] ↔ ∀ c ∈ cols, c ∈ getAvailableColumns et := by
  unfold getInvalidColumns
  rw [List.filter_eq_nil_iff]
  constructor
  · intro h c hc
    have h2 := h c hc
    simpa using h2
  · intro h c hc
    simpa using h c hc

theorem nameErrors_nil_iff (data : CreateTableViewDto) :
    nameErrors data = [] ↔ (jsTrim data.name.data ≠ [] ∧ data.name.length ≤ 50) := by
  unfold nameErrors
  by_cases hA : (jsTrim data.name.data).length = 0
  · have hcond : data.name = "" ∨ (jsTrim data.name.data).length = 0 := Or.inr hA
    rw [if_pos hcond]
    constructor
    · intro h
      exact absurd h (by simp)
    · rintro ⟨h1, _⟩
      exact absurd (List.length_eq_zero.mp hA) h1
  · have hcond : ¬(data.name = "" ∨ (jsTrim data.name.data).length = 0) := by
      rintro (h | h)
      · rw [h] at hA
        exact hA rfl
      · exact hA h
    rw [if_neg hcond]
    by_cases hB : data.name.length > 50
    · rw [if_pos hB]
      constructor
      · intro h
        exact absurd h (by simp)
      · rintro ⟨_, h2⟩
        omega
    · rw [if_neg hB]
      constructor
      · intro _
        refine ⟨fun hnil => hA (by rw [hnil]; rfl), by omega⟩
      · intro _
        rfl

theorem nameErrors_field (data : CreateTableViewDto) :
    ∀ e ∈ nameErrors data, e.field = "name" := by
  intro e he
  unfold nameErrors at he
  split at he
  · simp at he
    rw [he]
  · split at he
    · simp at he
      rw [he]
    · simp at he

theorem entityTypeErrors_nil_iff (data : CreateTableViewDto) :
    entityTypeErrors data = [] ↔ data.entityType ∈ entityTypeValues := by
  unfold entityTypeErrors
  by_cases h0 : data.entityType = ""
  · rw [if_pos h0]
    constructor
    · intro h
      exact absurd h (by simp)
    · intro hmem
      rw [h0] at hmem
      exact absurd hmem (by decide)
  · rw [if_neg h0]
    by_cases h1 : entityTypeValues.contains data.entityType
    · rw [if_neg (by rw [h1]; simp)]
      constructor
      · intro _
        exact List.mem_of_elem_eq_true h1
      · intro _
        rfl
    · have h1f : entityTypeValues.contains data.entityType = false := by
        revert h1
        cases entityTypeValues.contains data.entityType <;> simp
      rw [if_pos h1f]
      constructor
      · intro h
        exact absurd h (by simp)
      · intro hmem
        have hc : entityTypeValues.contains data.entityType = true :=
          List.elem_eq_true_of_mem hmem
        rw [hc] at h1f
        cases h1f
  
theorem entityTypeErrors_field (data : CreateTableViewDto) :
    ∀ e ∈ entityTypeErrors data, e.field = "entityType" := by
  intro e he
  unfold entityTypeErrors at he
  split at he
  · simp at he
    rw [he]
  · split at he
    · simp at he
      rw [he]
    · simp at he

theorem visibleColumnsErrors_nil_iff (data : CreateTableViewDto) :
    visibleColumnsErrors data = []
      ↔ (data.visibleColumns ≠ [] ∧ data.visibleColumns.length ≤ 20 ∧
          (data.entityType ≠ "" →
            ∀ c ∈ data.visibleColumns, c ∈ getAvailableColumns data.entityType)) := by
  unfold visibleColumnsErrors
  by_cases h0 : data.visibleColumns = []
  · rw [if_pos h0]
    constructor
    · intro h
      exact absurd h (by simp)
    · rintro ⟨h1, _⟩
      exact absurd h0 h1
  · rw [if_neg h0]
    by_cases h1 : data.visibleColumns.length > 20
    · rw [if_pos h1]
      constructor
      · intro h
        exact absurd h (by simp)
      · rintro ⟨_, h2, _⟩
        omega
    · rw [if_neg h1]
      by_cases h2 : data.entityType ≠ ""
      · rw [if_pos h2]
        by_cases h3 : getInvalidColumns data.entityType data.visibleColumns ≠ []
        · rw [if_pos h3]
          constructor
          · intro h
            exact absurd h (by simp)
          · rintro ⟨_, _, himp⟩
            exact absurd ((getInvalidColumns_nil_iff _ _).mpr (himp h2)) h3
        · rw [if_neg h3]
          push_neg at h3
          constructor
          · intro _
            exact ⟨h0, by omega, fun _ => (getInvalidColumns_nil_iff _ _).mp h3⟩
          · intro _
            rfl
      · rw [if_neg h2]
        push_neg at h2
        constructor
        · intro _
          exact ⟨h0, by omega, fun hne => absurd h2 hne⟩
        · intro _
          rfl

theorem visibleColumnsErrors_field (data : CreateTableViewDto) :
    ∀ e ∈ visibleColumnsErrors data, e.field = "visibleColumns" := by
  intro e he
  unfold visibleColumnsErrors at he
  split at he
  · simp at he
    rw [he]
  · split at he
    · simp at he
      rw [he]
    · split at he
      · split at he
        · simp at he
          rw [he]
        · simp at he
      · simp at he

theorem errors_any_of_all_field (field0 : String) :
    ∀ l : List ViewValidationError, (∀ e ∈ l, e.field = field0) →
      ((l.any fun e => e.field = field0) = true ↔ l ≠ []) := by
  intro l hall
  cases l with
  | nil => simp
  | cons e es =>
    have he := hall e (by simp)
    simp [List.any_cons, he]

theorem errors_any_none_of_other_field (field0 field1 : String) (hne : field0 ≠ field1) :
    ∀ l : List ViewValidationError, (∀ e ∈ l, e.field = field1) →
      (l.any fun e => e.field = field0) = false := by
  intro l hall
  rw [List.any_eq_false]
  intro e he
  rw [hall e he]
  simp only [decide_eq_true_eq]
  exact fun h => hne h.symm

/-- C10: `validateCreateView` returns an empty error list iff the name
is non-blank after trimming and at most 50 characters, the entity type
is a member of the EntityType enumeration, and the visible columns are
non-empty, at most 20, and all available for that entity type; a
`name`-tagged (resp. `entityType`-, `visibleColumns`-tagged) error is
present exactly when the corresponding condition is violated, and every
error is tagged with one of the three fields. -/
theorem validateCreateView_characterization (data : CreateTableViewDto) :
    (validateCreateView data = []
      ↔ (jsTrim data.name.data ≠ [] ∧ data.name.length ≤ 50 ∧
         data.entityType ∈ entityTypeValues ∧
         data.visibleColumns ≠ [] ∧ data.visibleColumns.length ≤ 20 ∧
         ∀ c ∈ data.visibleColumns, c ∈ getAvailableColumns data.entityType)) ∧
    (((validateCreateView data).any fun e => e.field = "name") = true
      ↔ ¬(jsTrim data.name.data ≠ [] ∧ data.name.length ≤ 50)) ∧
    (((validateCreateView data).any fun e => e.field = "entityType") = true
      ↔ data.entityType ∉ entityTypeValues) ∧
    (((validateCreateView data).any fun e => e.field = "visibleColumns") = true
      ↔ ¬(data.visibleColumns ≠ [] ∧ data.visibleColumns.length ≤ 20 ∧
          (data.entityType ≠ "" →
            ∀ c ∈ data.visibleColumns, c ∈ getAvailableColumns data.entityType))) ∧
    (∀ e ∈ validateCreateView data,
      e.field = "name" ∨ e.field = "entityType" ∨ e.field = "visibleColumns") := by
  have hsplit : validateCreateView data
      = nameErrors data ++ entityTypeErrors data ++ visibleColumnsErrors data := rfl
  refine ⟨?_, ?_, ?_, ?_, ?_⟩
  · rw [hsplit]
    constructor
    · intro h
      rw [List.append_eq_nil, List.append_eq_nil] at h
      obtain ⟨⟨h1, h2⟩, h3⟩ := h
      have hn := (nameErrors_nil_iff data).mp h1
      have hetype := (entityTypeErrors_nil_iff data).mp h2
      have hcols := (visibleColumnsErrors_nil_iff data).mp h3
      have hne : data.entityType ≠ "" := by
        intro hempty
        rw [hempty] at hetype
        exact absurd hetype (by decide)
      exact ⟨hn.1, hn.2, hetype, hcols.1, hcols.2.1, hcols.2.2 hne⟩
    · rintro ⟨a1, a2, a3, a4, a5, a6⟩
      have h1 := (nameErrors_nil_iff data).mpr ⟨a1, a2⟩
      have h2 := (entityTypeErrors_nil_iff data).mpr a3
      have h3 := (visibleColumnsErrors_nil_iff data).mpr ⟨a4, a5, fun _ => a6⟩
      rw [h1, h2, h3]
      rfl
  · rw [hsplit]
    simp only [List.any_append]
    rw [errors_any_none_of_other_field ("name") ("entityType") (by decide)
        _ (entityTypeErrors_field data),
      errors_any_none_of_other_field ("name") ("visibleColumns") (by decide)
        _ (visibleColumnsErrors_field data)]
    simp only [Bool.or_false]
    rw [errors_any_of_all_field ("name") _ (nameErrors_field data)]
    rw [ne_eq, nameErrors_nil_iff data]
  · rw [hsplit]
    simp only [List.any_append]
    rw [errors_any_none_of_other_field ("entityType") ("name") (by decide)
        _ (nameErrors_field data),
      errors_any_none_of_other_field ("entityType") ("visibleColumns") (by decide)
        _ (visibleColumnsErrors_field data)]
    simp only [Bool.false_or, Bool.or_false]
    rw [errors_any_of_all_field ("entityType") _ (entityTypeErrors_field data)]
    rw [ne_eq, entityTypeErrors_nil_iff data]
  · rw [hsplit]
    simp only [List.any_append]
    rw [errors_any_none_of_other_field ("visibleColumns") ("name") (by decide)
        _ (nameErrors_field data),
      errors_any_none_of_other_field ("visibleColumns") ("entityType") (by decide)
        _ (entityTypeErrors_field data)]
    simp only [Bool.false_or]
    rw [errors_any_of_all_field ("visibleColumns") _ (visibleColumnsErrors_field data)]
    rw [ne_eq, visibleColumnsErrors_nil_iff data]
  · rw [hsplit]
    intro e he
    rw [List.mem_append] at he
    rcases he with he | he
    · rw [List.mem_append] at he
      rcases he with he | he
      · exact Or.inl (nameErrors_field data e he)
      · exact Or.inr (Or.inl (entityTypeErrors_field data e he))
    · exact Or.inr (Or.inr (visibleColumnsErrors_field data e he))

-- ============================================================
-- Theorems: column state invariant (C8)
-- ============================================================

theorem renumberOrders_orders (l : List ColumnState) :
    (renumberOrders l).map (fun c => c.order) = List.range l.length := by
  unfold renumberOrders
  rw [List.map_map]
  have h : ((fun c : ColumnState => c.order)
      ∘ fun p : Nat × ColumnState => { p.2 with order := p.1 }) = Prod.fst := by
    funext p
    rfl
  rw [h, List.enum_map_fst]

theorem renumberOrders_keys (l : List ColumnState) :
    (renumberOrders l).map (fun c => c.key) = l.map fun c => c.key := by
  unfold renumberOrders
  rw [List.map_map]
  have h : ((fun c : ColumnState => c.key)
      ∘ fun p : Nat × ColumnState => { p.2 with order := p.1 })
      = (fun c : ColumnState => c.key) ∘ Prod.snd := by
    funext p
    rfl
  rw [h, ← List.map_map, List.enum_map_snd]

theorem renumberOrders_length (l : List ColumnState) :
    (renumberOrders l).length = l.length := by
  unfold renumberOrders
  rw [List.length_map, List.enum_length]

theorem renumberOrders_invariant (l : List ColumnState)
    (h : (l.map fun c => c.key).Nodup) : ColumnInvariant (renumberOrders l) := by
  constructor
  · rw [renumberOrders_keys]
    exact h
  · rw [renumberOrders_orders, renumberOrders_length]

theorem initColumnSettings_keys (cols : List ColumnConfig) :
    (initColumnSettings cols).map (fun c => c.key) = cols.map fun c => c.key := by
  unfold initColumnSettings
  rw [List.map_map]
  have h : ((fun c : ColumnState => c.key)
      ∘ fun p : Nat × ColumnConfig =>
        (⟨p.2.key, p.2.defaultVisible, p.1, p.2.width⟩ : ColumnState))
      = (fun c : ColumnConfig => c.key) ∘ Prod.snd := by
    funext p
    rfl
  rw [h, ← List.map_map, List.enum_map_snd]

theorem initColumnSettings_invariant (cols : List ColumnConfig)
    (h : (cols.map fun c => c.key).Nodup) :
    ColumnInvariant (initColumnSettings cols) := by
  constructor
  · rw [initColumnSettings_keys]
    exact h
  · have h1 : (initColumnSettings cols).map (fun c => c.order)
        = List.range cols.length := by
      unfold initColumnSettings
      rw [List.map_map]
      have h2 : ((fun c : ColumnState => c.order)
          ∘ fun p : Nat × ColumnConfig =>
            (⟨p.2.key, p.2.defaultVisible, p.1, p.2.width⟩ : ColumnState)) = Prod.fst := by
        funext p
        rfl
      rw [h2, List.enum_map_fst]
    have h2 : (initColumnSettings cols).length = cols.length := by
      unfold initColumnSettings
      rw [List.length_map, List.enum_length]
    rw [h1, h2]

theorem map_preserves_invariant (g : ColumnState → ColumnState)
    (hk : ∀ c, (g c).key = c.key) (ho : ∀ c, (g c).order = c.order)
    (s : List ColumnState) (h : ColumnInvariant s) :
    ColumnInvariant (s.map g) := by
  obtain ⟨h1, h2⟩ := h
  constructor
  · rw [List.map_map]
    have hg : ((fun c : ColumnState => c.key) ∘ g) = fun c : ColumnState => c.key :=
      funext hk
    rw [hg]
    exact h1
  · rw [List.map_map, List.length_map]
    have hg : ((fun c : ColumnState => c.order) ∘ g) = fun c : ColumnState => c.order :=
      funext ho
    rw [hg]
    exact h2

theorem splice_perm (l : List ColumnState) (i : Nat) (x : ColumnState) (j : Nat)
    (hx : l.get? i = some x) :
    ((l.eraseIdx i).take j ++ x :: (l.eraseIdx i).drop j).Perm l := by
  obtain ⟨hi, hget⟩ := List.get?_eq_some.mp hx
  have h1 : ((l.eraseIdx i).take j ++ x :: (l.eraseIdx i).drop j).Perm
      (x :: l.eraseIdx i) := by
    refine List.perm_middle.trans ?_
    rw [List.take_append_drop]
  have hdrop : l.drop i = x :: l.drop (i + 1) := by
    rw [← List.getElem_cons_drop l i hi]
    congr 1
  have hdecomp : l = l.take i ++ x :: l.drop (i + 1) := by
    conv_lhs => rw [← List.take_append_drop i l, hdrop]
  have h2 : (x :: l.eraseIdx i).Perm l := by
    rw [List.eraseIdx_eq_take_drop_succ]
    conv_rhs => rw [hdecomp]
    exact List.perm_middle.symm
  exact h1.trans h2

theorem sortByOrder_perm (s : List ColumnState) : (sortByOrder s).Perm s :=
  List.perm_insertionSort _ s

theorem moveColumn_invariant (s : List ColumnState) (key : String) (up : Bool)
    (h : ColumnInvariant s) : ColumnInvariant (moveColumn key up s) := by
  unfold moveColumn
  simp only []
  cases hfind : List.findIdx? (fun col => decide (col.key = key)) (sortByOrder s) with
  | none => exact h
  | some i =>
    simp only []
    split
    all_goals
      split
      · exact h
      · cases hget : (sortByOrder s).get? i with
        | none => exact h
        | some moved =>
          apply renumberOrders_invariant
          exact ((((splice_perm (sortByOrder s) i moved _ hget).trans
            (sortByOrder_perm s)).map fun c => c.key).nodup_iff).mpr h.1

theorem handleColumnReorder_invariant (s : List ColumnState) (k1 k2 : String)
    (h : ColumnInvariant s) : ColumnInvariant (handleColumnReorder k1 k2 s) := by
  unfold handleColumnReorder
  simp only []
  cases hfind1 : List.findIdx? (fun col => decide (col.key = k1)) (sortByOrder s) with
  | none => exact h
  | some di =>
    cases hfind2 : List.findIdx? (fun col => decide (col.key = k2)) (sortByOrder s) with
    | none => exact h
    | some pi =>
      simp only []
      cases hget : (sortByOrder s).get? di with
      | none => exact h
      | some dragged =>
        apply renumberOrders_invariant
        exact ((((splice_perm (sortByOrder s) di dragged pi hget).trans
          (sortByOrder_perm s)).map fun c => c.key).nodup_iff).mpr h.1

theorem visibleColumns_orders_nodup (s : List ColumnState) (h : ColumnInvariant s) :
    ((visibleColumns s).map fun c => c.order).Nodup := by
  have hnodup : ((s.filter fun c => c.visible).map fun c => c.order).Nodup := by
    have hs : ((s.filter fun c => c.visible).map fun c => c.order).Sublist
        (s.map fun c => c.order) := (List.filter_sublist s).map _
    exact List.Nodup.sublist hs (h.2.nodup_iff.mpr (List.nodup_range _))
  have hperm : ((visibleColumns s).map fun c => c.order).Perm
      ((s.filter fun c => c.visible).map fun c => c.order) :=
    (sortByOrder_perm _).map _
  exact hperm.nodup_iff.mpr hnodup

/-- C8 counterexample: with three configured columns a, b, c of which b
is hidden by default, the initial column state gives the two visible
columns the order values 0 and 2 — not a dense permutation of 0..1, so
the claimed visible-column order invariant fails at render time even
though nothing was mutated. -/
theorem visibleColumns_order_not_dense_counterexample :
    ¬ (((visibleColumns (initColumnSettings
        [⟨"a", true, none⟩, ⟨"b", false, none⟩, ⟨"c", true, none⟩])).map
          fun c => c.order).Perm
        (List.range (visibleColumns (initColumnSettings
          [⟨"a", true, none⟩, ⟨"b", false, none⟩, ⟨"c", true, none⟩])).length)) := by
  decide

/-- C8 (amended): when the configured keys are distinct, the column
state keeps exactly one descriptor per key, and the order values over
ALL columns (visible or not) form a dense permutation of 0..N-1 for N
the total column count; initialization, visibility toggling, resizing,
move up/down, drag-and-drop reorder and reset all preserve this
invariant. Consequently the visible columns at render time have
pairwise-distinct order values, but they are not in general dense in
0..(number of visible columns)-1. -/
theorem column_state_invariant_preserved :
    (∀ cols : List ColumnConfig, ((cols.map fun c => c.key).Nodup) →
      ColumnInvariant (initColumnSettings cols) ∧
      ColumnInvariant (resetColumns cols)) ∧
    (∀ (s : List ColumnState) (key : String), ColumnInvariant s →
      ColumnInvariant (toggleColumnVisibility key s)) ∧
    (∀ (s : List ColumnState) (key : String) (w : Rat), ColumnInvariant s →
      ColumnInvariant (handleColumnResize key w s)) ∧
    (∀ (s : List ColumnState) (key : String) (up : Bool), ColumnInvariant s →
      ColumnInvariant (moveColumn key up s)) ∧
    (∀ (s : List ColumnState) (k1 k2 : String), ColumnInvariant s →
      ColumnInvariant (handleColumnReorder k1 k2 s)) ∧
    (∀ s : List ColumnState, ColumnInvariant s →
      ((visibleColumns s).map fun c => c.order).Nodup) := by
  refine ⟨fun cols h =>
      ⟨initColumnSettings_invariant cols h, initColumnSettings_invariant cols h⟩,
    fun s key h => ?_, fun s key w h => ?_,
    fun s key up h => moveColumn_invariant s key up h,
    fun s k1 k2 h => handleColumnReorder_invariant s k1 k2 h,
    fun s h => visibleColumns_orders_nodup s h⟩
  · unfold toggleColumnVisibility
    apply map_preserves_invariant _ _ _ _ h
    · intro c
      by_cases hc : c.key = key <;> simp [hc]
    · intro c
      by_cases hc : c.key = key <;> simp [hc]
  · unfold handleColumnResize
    apply map_preserves_invariant _ _ _ _ h
    · intro c
      by_cases hc : c.key = key <;> simp [hc]
    · intro c
      by_cases hc : c.key = key <;> simp [hc]

/-- C8 witness: the invariant holds for the initial three-column state
and is preserved by a toggle, a move, a drag-and-drop reorder and a
resize on it. -/
theorem column_state_invariant_preserved_witness :
    ColumnInvariant (initColumnSettings
      [⟨"a", true, none⟩, ⟨"b", false, none⟩, ⟨"c", true, none⟩]) ∧
    ColumnInvariant (toggleColumnVisibility ("b") (initColumnSettings
      [⟨"a", true, none⟩, ⟨"b", false, none⟩, ⟨"c", true, none⟩])) ∧
    ColumnInvariant (moveColumn ("c") true (initColumnSettings
      [⟨"a", true, none⟩, ⟨"b", false, none⟩, ⟨"c", true, none⟩])) ∧
    ColumnInvariant (handleColumnReorder ("a") ("c") (initColumnSettings
      [⟨"a", true, none⟩, ⟨"b", false, none⟩, ⟨"c", true, none⟩])) ∧
    ColumnInvariant (handleColumnResize ("a") 100 (initColumnSettings
      [⟨"a", true, none⟩, ⟨"b", false, none⟩, ⟨"c", true, none⟩])) :=
  ⟨(column_state_invariant_preserved.1 _ (by decide)).1,
   column_state_invariant_preserved.2.1 _ _ ⟨by decide, by decide⟩,
   column_state_invariant_preserved.2.2.2.1 _ _ _ ⟨by decide, by decide⟩,
   column_state_invariant_preserved.2.2.2.2.1 _ _ _ ⟨by decide, by decide⟩,
   column_state_invariant_preserved.2.2.1 _ _ _ ⟨by decide, by decide⟩⟩
